import Mathlib

/-!
Verification development for the c8y-nitro caching and credential layer.

The definitions below are shallow embeddings of:
  - src/utils/common.ts   (extractUserCredentialsFromHeaders)
  - src/utils/cached.ts   (getUser / getUserRoles / getSubscribedTenantCredentials)
  - src/utils/internal/cached.ts (useSubscribedTenantCredentials,
    useDeployedTenantCredentials, useUserTenantCredentials)
  - src/utils/resources.ts (useUser)
  - src/utils/tenantOptions.ts (the dynamic per-key tenant-option cache registry)

The TTL-cache primitive the repository uses (nitro's defineCachedFunction and
its storage layout) is an external collaborator whose code is not part of the
repository; it is modelled from the specification (sections 4.2 and 6).
JavaScript strings are modelled as Lean strings (lists of characters), and the
JS builtins the source calls (String.prototype.slice / indexOf / startsWith /
replace, JSON.stringify) are given explicit Lean models next to their use
sites.
-/

/-- Model of the HTTPError values thrown by the source (nitro/h3 HTTPError):
only the fields the source sets are kept. -/
structure HTTPError where
  status : Nat
  statusText : String
  message : String
deriving DecidableEq

/-- Model of the ICredentials values produced by
extractUserCredentialsFromHeaders (src/utils/common.ts): the Basic branch
returns an object with fields user, password, tenant (in that insertion
order), the Bearer branch returns an object with the single field token. -/
inductive ICredentials where
  | basic (user password tenant : String)
  | bearer (token : String)
deriving DecidableEq

/-- Model of JS String.prototype.startsWith for a literal argument. -/
def jsStartsWith (s pre : String) : Bool :=
  List.isPrefixOf pre.data s.data

/-- Model of JS String.prototype.slice with one argument (drop n chars). -/
def jsSliceFrom (s : String) (n : Nat) : String :=
  String.mk (s.data.drop n)

/-- Model of JS String.prototype.slice (0, n) (take the first n chars). -/
def jsSliceTo (s : String) (n : Nat) : String :=
  String.mk (s.data.take n)

/-- Model of JS String.prototype.indexOf for a single character: index of the
first occurrence, none when absent (JS returns -1). -/
def jsIndexOf (s : String) (c : Char) : Option Nat :=
  s.data.findIdx? (fun x => x = c)

/-- Shallow embedding of extractUserCredentialsFromHeaders
(src/utils/common.ts, lines 11-76).  The base64 decoding performed by
Buffer.from(encoded, 'base64').toString('utf-8') is an external builtin and is
passed in as the function b64decode; the Authorization header is an Option
(none models a missing header). -/
def extractUserCredentialsFromHeaders (b64decode : String → String)
    (authorization : Option String) : Except HTTPError ICredentials :=
  match authorization with
  | none => .error ⟨401, "Unauthorized", "Missing Authorization header"⟩
  | some auth =>
    if jsStartsWith auth "Basic " then
      let encoded := jsSliceFrom auth 6
      let decoded := b64decode encoded
      match jsIndexOf decoded ':' with
      | none => .error ⟨401, "Unauthorized", "Invalid Basic auth format"⟩
      | some colonIndex =>
        let username := jsSliceTo decoded colonIndex
        let password := jsSliceFrom decoded (colonIndex + 1)
        match jsIndexOf username '/' with
        | none =>
          .error ⟨401, "Unauthorized", "Invalid username format, expected tenant/user"⟩
        | some slashIndex =>
          let tenant := jsSliceTo username slashIndex
          let user := jsSliceFrom username (slashIndex + 1)
          .ok (.basic user password tenant)
    else if jsStartsWith auth "Bearer " then
      let token := jsSliceFrom auth 7
      if token = "" then
        .error ⟨401, "Unauthorized", "Empty Bearer token"⟩
      else
        .ok (.bearer token)
    else
      .error ⟨401, "Unauthorized", "Unsupported Authorization header format"⟩

/-- Model of JS String.prototype.replace with the global pattern of a single
dot character, as in key.replace of the tenant-option cache-name computation
(src/utils/tenantOptions.ts, line 34): every dot is replaced by an
underscore. -/
def replaceDots (s : String) : String :=
  String.mk (s.data.map (fun c => if c = '.' then '_' else c))

/-- Cache name for a tenant-option key
(src/utils/tenantOptions.ts, line 34). -/
def tenantOptionCacheName (key : String) : String :=
  "_c8y_nitro_tenant_option_" ++ replaceDots key

-- Model of JSON.stringify on the two shapes of ICredentials values, used by
-- the getKey derivations of src/utils/cached.ts (lines 51-55 and 100-104).
-- JSON.stringify serializes object fields in insertion order and escapes
-- string contents: quote and backslash get a backslash escape, the named
-- control characters get \b \t \n \f \r, all other control characters get a
-- \u00XX escape with lowercase hex digits, and every other character is
-- emitted unchanged.

/-- Lowercase hex digit character used by the JSON \u00XX escapes. -/
def lowerHexDigit (n : Nat) : Char :=
  if n < 10 then Char.ofNat (48 + n) else Char.ofNat (87 + n)

/-- JSON string escaping of one character (model of the escaping performed by
JSON.stringify on string values). -/
def escChar (c : Char) : List Char :=
  if c = '"' then ['\\', '"']
  else if c = '\\' then ['\\', '\\']
  else if c = '\x08' then ['\\', 'b']
  else if c = '\x09' then ['\\', 't']
  else if c = '\x0a' then ['\\', 'n']
  else if c = '\x0c' then ['\\', 'f']
  else if c = '\x0d' then ['\\', 'r']
  else if c.toNat < 32 then
    '\\' :: 'u' :: '0' :: '0' :: [lowerHexDigit (c.toNat / 16), lowerHexDigit (c.toNat % 16)]
  else [c]

/-- JSON string escaping of a character list. -/
def escList : List Char → List Char
  | [] => []
  | c :: cs => escChar c ++ escList cs

/-- The literal characters of the serialized Basic-credentials object up to
the opening quote of the user value. -/
def userLit : List Char :=
  ['\x7b', '"', 'u', 's', 'e', 'r', '"', ':', '"']

/-- The characters between the user value and the password value, without the
closing quote of the user value. -/
def passwordSepTail : List Char :=
  [',', '"', 'p', 'a', 's', 's', 'w', 'o', 'r', 'd', '"', ':', '"']

/-- The characters between the user value and the password value. -/
def passwordSep : List Char := '"' :: passwordSepTail

/-- The characters between the password value and the tenant value, without
the closing quote of the password value. -/
def tenantSepTail : List Char :=
  [',', '"', 't', 'e', 'n', 'a', 'n', 't', '"', ':', '"']

/-- The characters between the password value and the tenant value. -/
def tenantSep : List Char := '"' :: tenantSepTail

/-- The literal characters of the serialized Bearer-credentials object up to
the opening quote of the token value. -/
def tokenLit : List Char :=
  ['\x7b', '"', 't', 'o', 'k', 'e', 'n', '"', ':', '"']

/-- The closing characters of a serialized credentials object. -/
def closeLit : List Char := ['"', '\x7d']

/-- The character list of JSON.stringify applied to an ICredentials value as
produced by extractUserCredentialsFromHeaders: field order is the insertion
order of the object literals in src/utils/common.ts. -/
def credJson : ICredentials → List Char
  | .basic u p t =>
    userLit ++ escList u.data ++ passwordSep ++ escList p.data
      ++ tenantSep ++ escList t.data ++ closeLit
  | .bearer tok => tokenLit ++ escList tok.data ++ closeLit

/-- Model of JSON.stringify(creds) (src/utils/cached.ts, line 54). -/
def jsonStringifyCreds (c : ICredentials) : String :=
  String.mk (credJson c)

/-- The per-call cache-key discriminator of getUser
(src/utils/cached.ts, line 54). -/
def getUserCacheKeyPart (c : ICredentials) : String :=
  "_c8y_user_" ++ jsonStringifyCreds c

-- Sanity instances of the serialization model.
example :
    jsonStringifyCreds (.basic "alice" "pw" "t1")
      = "\x7b\"user\":\"alice\",\"password\":\"pw\",\"tenant\":\"t1\"\x7d" := by
  decide

example : jsonStringifyCreds (.bearer "tok") = "\x7b\"token\":\"tok\"\x7d" := by
  decide

-- Injectivity of the serialization, proved by exhibiting a decoder that is a
-- left inverse of credJson.

/-- Hex digit value of a character of a \u00XX escape. -/
def hexVal (c : Char) : Nat :=
  if 97 ≤ c.toNat then c.toNat - 87 else c.toNat - 48

/-- Inverse of the two-character named JSON escapes. -/
def unescChar (e : Char) : Char :=
  if e = 'b' then '\x08'
  else if e = 't' then '\x09'
  else if e = 'n' then '\x0a'
  else if e = 'f' then '\x0c'
  else if e = 'r' then '\x0d'
  else e

/-- Parses an escaped JSON string body up to (and including) its closing
unescaped quote, returning the unescaped content and the remaining input. -/
def parseJsonStr : List Char → Option (List Char × List Char)
  | [] => none
  | c :: rest =>
    if c = '"' then some ([], rest)
    else if c = '\\' then
      match rest with
      | [] => none
      | e :: rest2 =>
        if e = 'u' then
          match rest2 with
          | h1 :: h2 :: h3 :: h4 :: rest3 =>
            match parseJsonStr rest3 with
            | some sr =>
              some (Char.ofNat
                (((hexVal h1 * 16 + hexVal h2) * 16 + hexVal h3) * 16 + hexVal h4)
                :: sr.1, sr.2)
            | none => none
          | _ => none
        else
          match parseJsonStr rest2 with
          | some sr => some (unescChar e :: sr.1, sr.2)
          | none => none
    else
      match parseJsonStr rest with
      | some sr => some (c :: sr.1, sr.2)
      | none => none

/-- Strips an expected literal character sequence from the front of the
input. -/
def stripLit : List Char → List Char → Option (List Char)
  | [], l => some l
  | _ :: _, [] => none
  | p :: ps, c :: cs => if c = p then stripLit ps cs else none

/-- Decoder of the serialized credentials objects; left inverse of
credJson. -/
def decodeCredJson (l : List Char) : Option ICredentials :=
  match stripLit userLit l with
  | some r1 =>
    match parseJsonStr r1 with
    | some (u, r2) =>
      match stripLit passwordSepTail r2 with
      | some r3 =>
        match parseJsonStr r3 with
        | some (p, r4) =>
          match stripLit tenantSepTail r4 with
          | some r5 =>
            match parseJsonStr r5 with
            | some (t, r6) =>
              if r6 = ['\x7d'] then
                some (.basic (String.mk u) (String.mk p) (String.mk t))
              else none
            | none => none
          | none => none
        | none => none
      | none => none
    | none => none
  | none =>
    match stripLit tokenLit l with
    | some r1 =>
      match parseJsonStr r1 with
      | some (tok, r2) =>
        if r2 = ['\x7d'] then some (.bearer (String.mk tok)) else none
      | none => none
    | none => none

theorem stripLit_append (p t : List Char) : stripLit p (p ++ t) = some t := by
  induction p with
  | nil => rfl
  | cons c cs ih => simp [stripLit, ih]

theorem hexVal_lowerHexDigit (n : Nat) (h : n < 16) :
    hexVal (lowerHexDigit n) = n := by
  interval_cases n <;> decide

theorem parseJsonStr_escList (s t : List Char) :
    parseJsonStr (escList s ++ '"' :: t) = some (s, t) := by
  induction s with
  | nil => rw [escList, List.nil_append, parseJsonStr.eq_def]; simp
  | cons c cs ih =>
    show parseJsonStr (escChar c ++ escList cs ++ '"' :: t) = _
    by_cases h1 : c = '"'
    · subst h1
      simp only [escChar, if_pos rfl, List.cons_append, List.nil_append]
      rw [parseJsonStr.eq_def]; simp [unescChar, ih]
    by_cases h2 : c = '\\'
    · subst h2
      simp only [escChar, if_neg h1, if_pos rfl, List.cons_append, List.nil_append]
      rw [parseJsonStr.eq_def]; simp [unescChar, ih]
    by_cases h3 : c = '\x08'
    · subst h3
      simp only [escChar, if_neg h1, if_neg h2, if_pos rfl, List.cons_append,
        List.nil_append]
      rw [parseJsonStr.eq_def]; simp [unescChar, ih]
    by_cases h4 : c = '\x09'
    · subst h4
      simp only [escChar, if_neg h1, if_neg h2, if_neg h3, if_pos rfl,
        List.cons_append, List.nil_append]
      rw [parseJsonStr.eq_def]; simp [unescChar, ih]
    by_cases h5 : c = '\x0a'
    · subst h5
      simp only [escChar, if_neg h1, if_neg h2, if_neg h3, if_neg h4, if_pos rfl,
        List.cons_append, List.nil_append]
      rw [parseJsonStr.eq_def]; simp [unescChar, ih]
    by_cases h6 : c = '\x0c'
    · subst h6
      simp only [escChar, if_neg h1, if_neg h2, if_neg h3, if_neg h4, if_neg h5,
        if_pos rfl, List.cons_append, List.nil_append]
      rw [parseJsonStr.eq_def]; simp [unescChar, ih]
    by_cases h7 : c = '\x0d'
    · subst h7
      simp only [escChar, if_neg h1, if_neg h2, if_neg h3, if_neg h4, if_neg h5,
        if_neg h6, if_pos rfl, List.cons_append, List.nil_append]
      rw [parseJsonStr.eq_def]; simp [unescChar, ih]
    by_cases h8 : c.toNat < 32
    · have hdiv : c.toNat / 16 < 16 := by omega
      have hmod : c.toNat % 16 < 16 := by omega
      simp only [escChar, if_neg h1, if_neg h2, if_neg h3, if_neg h4, if_neg h5,
        if_neg h6, if_neg h7, if_pos h8, List.cons_append, List.nil_append]
      rw [parseJsonStr.eq_def]
      simp only [reduceIte, ih]
      simp only [hexVal_lowerHexDigit _ hdiv, hexVal_lowerHexDigit _ hmod]
      have hv : hexVal '0' = 0 := by decide
      have hn : ((hexVal '0' * 16 + hexVal '0') * 16 + c.toNat / 16) * 16
          + c.toNat % 16 = c.toNat := by
        rw [hv]; omega
      simp [hn, Char.ofNat_toNat]
    · simp only [escChar, if_neg h1, if_neg h2, if_neg h3, if_neg h4, if_neg h5,
        if_neg h6, if_neg h7, if_neg h8, List.cons_append, List.nil_append]
      rw [parseJsonStr.eq_def]
      simp [h1, h2, ih]

theorem decodeCredJson_credJson (c : ICredentials) :
    decodeCredJson (credJson c) = some c := by
  cases c with
  | basic u p t =>
    have h : credJson (.basic u p t)
        = userLit ++ (escList u.data ++ '"' :: (passwordSepTail
          ++ (escList p.data ++ '"' :: (tenantSepTail
          ++ (escList t.data ++ '"' :: ['\x7d']))))) := by
      simp [credJson, passwordSep, tenantSep, closeLit, passwordSepTail,
        tenantSepTail]
    rw [h]
    simp [decodeCredJson, stripLit_append, parseJsonStr_escList]
  | bearer tok =>
    have h : credJson (.bearer tok)
        = tokenLit ++ (escList tok.data ++ '"' :: ['\x7d']) := by
      simp [credJson, closeLit]
    rw [h]
    have hfail : stripLit userLit (tokenLit ++ (escList tok.data ++ '"' :: ['\x7d']))
        = none := by
      simp [userLit, tokenLit, stripLit]
    simp [decodeCredJson, hfail, stripLit_append, parseJsonStr_escList]

theorem credJson_injective {c1 c2 : ICredentials}
    (h : credJson c1 = credJson c2) : c1 = c2 := by
  have h1 := decodeCredJson_credJson c1
  rw [h, decodeCredJson_credJson c2] at h1
  exact (Option.some.injEq _ _).mp h1 |>.symm

theorem getUserCacheKeyPart_injective {c1 c2 : ICredentials}
    (h : getUserCacheKeyPart c1 = getUserCacheKeyPart c2) : c1 = c2 := by
  apply credJson_injective
  have hd := congrArg String.data h
  simp only [getUserCacheKeyPart, jsonStringifyCreds, String.data_append] at hd
  exact List.append_cancel_left hd

-- --------------------------------------------------------------------------
-- The TTL cache primitive.
-- --------------------------------------------------------------------------

/-- Modelled from the spec: the CacheEntry record of the durable storage
backend (section 3): a stored value together with its storedAt timestamp. -/
structure CacheEntry (V : Type) where
  value : V
  storedAt : Nat
deriving DecidableEq

/-- Modelled from the spec: construction inputs of a TTL cache instance
(section 4.2): name, group namespace, maxAge in seconds, and the optional
per-call key discriminator (none means the cache has a single entry keyed by
name alone).  All caches in the repository pass swr disabled, so swr is not
modelled. -/
structure CachedCfg where
  name : String
  group : String
  maxAge : Nat
  keyPart : Option String
deriving DecidableEq

/-- Modelled from the spec: the fully-qualified durable-storage key of a
cache entry (section 6): group, ":functions:", name, the optional
discriminator, and the ".json" suffix.  The same layout appears literally in
the invalidate implementations of src/utils/cached.ts (lines 62, 111, 169). -/
def completeKey (cfg : CachedCfg) : String :=
  cfg.group ++ ":functions:" ++ cfg.name
    ++ (match cfg.keyPart with
        | some d => ":" ++ d
        | none => "")
    ++ ".json"

/-- Durable storage modelled as an association list from fully-qualified keys
to entries. -/
def Storage (V : Type) : Type := List (String × CacheEntry V)

/-- Storage read (get of the durable key-value backend). -/
def storageGet {V : Type} (st : Storage V) (k : String) : Option (CacheEntry V) :=
  match st with
  | [] => none
  | (k1, e) :: rest => if k1 = k then some e else storageGet rest k

/-- Storage delete (removeItem of the durable key-value backend). -/
def storageRemove {V : Type} (st : Storage V) (k : String) : Storage V :=
  match st with
  | [] => []
  | (k1, e) :: rest =>
    if k1 = k then storageRemove rest k else (k1, e) :: storageRemove rest k

/-- Storage write (set of the durable key-value backend): overwrites any
entry under the same key. -/
def storageSet {V : Type} (st : Storage V) (k : String) (e : CacheEntry V) :
    Storage V :=
  (k, e) :: storageRemove st k

/-- Modelled from the spec: the state a cache instance interacts with — the
shared durable storage, the current time, and a count of upstream fetches
performed so far (the instrumentation the spec's testable properties count
fetch invocations with). -/
structure CacheWorld (V : Type) where
  storage : Storage V
  now : Nat
  fetchCount : Nat

/-- Modelled from the spec: the fetch-and-store path of a TTL cache get
(section 4.2): invoke the supplied fetch exactly once; on success store
the value with storedAt = now under the computed key and return it; on
failure propagate the failure and write no entry.  The fetch oracle is
indexed by the number of fetches already performed. -/
def cachedFetchAndStore {V E : Type} (cfg : CachedCfg)
    (fetch : Nat → Except E V) (w : CacheWorld V) :
    Except E V × CacheWorld V :=
  match fetch w.fetchCount with
  | .ok v =>
    (.ok v,
      { w with
          storage := storageSet w.storage (completeKey cfg) ⟨v, w.now⟩
          fetchCount := w.fetchCount + 1 })
  | .error e => (.error e, { w with fetchCount := w.fetchCount + 1 })

/-- Modelled from the spec: get of a TTL cache (section 4.2): compute the
full key, look up durable storage; on a fresh hit (age at most maxAge)
return the stored value with no further effect; on a miss or a stale hit
fetch and store. -/
def cachedGet {V E : Type} (cfg : CachedCfg) (fetch : Nat → Except E V)
    (w : CacheWorld V) : Except E V × CacheWorld V :=
  match storageGet w.storage (completeKey cfg) with
  | some entry =>
    if w.now - entry.storedAt ≤ cfg.maxAge then (.ok entry.value, w)
    else cachedFetchAndStore cfg fetch w
  | none => cachedFetchAndStore cfg fetch w

/-- Modelled from the spec: invalidate of a TTL cache (section 4.2), and
literally the invalidate implementations of src/utils/cached.ts: delete the
durable entry for the currently-computed key. -/
def cachedInvalidate {V : Type} (cfg : CachedCfg) (w : CacheWorld V) :
    CacheWorld V :=
  { w with storage := storageRemove w.storage (completeKey cfg) }

/-- refresh as implemented throughout the repository (src/utils/cached.ts
lines 65-70, 114-119, 172-177; src/utils/tenantOptions.ts lines 71-75):
delete the stored entry, then run the cached function again. -/
def cachedRefresh {V E : Type} (cfg : CachedCfg) (fetch : Nat → Except E V)
    (w : CacheWorld V) : Except E V × CacheWorld V :=
  cachedGet cfg fetch (cachedInvalidate cfg w)

theorem storageGet_remove_self {V : Type} (st : Storage V) (k : String) :
    storageGet (storageRemove st k) k = none := by
  induction st with
  | nil => rfl
  | cons p rest ih =>
    by_cases h : p.1 = k
    · simp [storageRemove, h, ih]
    · simp [storageRemove, storageGet, h, ih]

theorem storageGet_remove_other {V : Type} (st : Storage V) (k k1 : String)
    (h : k1 ≠ k) : storageGet (storageRemove st k) k1 = storageGet st k1 := by
  induction st with
  | nil => rfl
  | cons p rest ih =>
    obtain ⟨k2, e⟩ := p
    by_cases hp : k2 = k
    · subst hp
      have hne : ¬ k2 = k1 := fun he => h he.symm
      simp [storageRemove, storageGet, hne, ih]
    · by_cases hq : k2 = k1
      · subst hq
        simp [storageRemove, storageGet, hp]
      · simp [storageRemove, storageGet, hp, hq, ih]

theorem storageGet_set_self {V : Type} (st : Storage V) (k : String)
    (e : CacheEntry V) : storageGet (storageSet st k e) k = some e := by
  simp [storageSet, storageGet]

theorem storageGet_set_other {V : Type} (st : Storage V) (k k1 : String)
    (e : CacheEntry V) (h : k1 ≠ k) :
    storageGet (storageSet st k e) k1 = storageGet st k1 := by
  have : ¬ k = k1 := fun he => h he.symm
  simp [storageSet, storageGet, this, storageGet_remove_other st k k1 h]

-- --------------------------------------------------------------------------
-- The concrete cached accessors of the repository.
-- --------------------------------------------------------------------------

/-- Cache configuration of getUser (src/utils/cached.ts, lines 47-56):
name _c8y_nitro_get_user, group c8y_nitro, maxAge 10 minutes, key
discriminator derived from the request credentials. -/
def getUserCfg (creds : ICredentials) : CachedCfg :=
  ⟨"_c8y_nitro_get_user", "c8y_nitro", 10 * 60, some (getUserCacheKeyPart creds)⟩

/-- Cache configuration of getUserRoles (src/utils/cached.ts, lines
96-105). -/
def getUserRolesCfg (creds : ICredentials) : CachedCfg :=
  ⟨"_c8y_nitro_get_user_roles", "c8y_nitro", 10 * 60,
    some ("_c8y_user_roles_" ++ jsonStringifyCreds creds)⟩

/-- Cache configuration of getSubscribedTenantCredentials /
useSubscribedTenantCredentials (src/utils/cached.ts lines 161-166 and
src/utils/internal/cached.ts lines 165-170): no per-call discriminator, one
entry for the whole process. -/
def subscribedTenantCredentialsCfg : CachedCfg :=
  ⟨"_c8y_nitro_get_subscribed_tenant_credentials", "c8y_nitro", 10 * 60, none⟩

/-- getUser.refresh (src/utils/cached.ts, lines 65-70): invalidate, then run
the cached function. -/
def getUserRefresh {U : Type} (creds : ICredentials)
    (fetch : Nat → Except HTTPError U) (w : CacheWorld U) :
    Except HTTPError U × CacheWorld U :=
  cachedGet (getUserCfg creds) fetch (cachedInvalidate (getUserCfg creds) w)

/-- getUserRoles.refresh (src/utils/cached.ts, lines 114-119). -/
def getUserRolesRefresh (creds : ICredentials)
    (fetch : Nat → Except HTTPError (List String))
    (w : CacheWorld (List String)) :
    Except HTTPError (List String) × CacheWorld (List String) :=
  cachedGet (getUserRolesCfg creds) fetch
    (cachedInvalidate (getUserRolesCfg creds) w)

/-- getSubscribedTenantCredentials.refresh (src/utils/cached.ts, lines
172-177).  The credentials map is modelled as an association list from
tenant ids to credential values of an abstract type C. -/
def getSubscribedTenantCredentialsRefresh {C : Type}
    (fetch : Nat → Except HTTPError (List (String × C)))
    (w : CacheWorld (List (String × C))) :
    Except HTTPError (List (String × C)) × CacheWorld (List (String × C)) :=
  cachedGet subscribedTenantCredentialsCfg fetch
    (cachedInvalidate subscribedTenantCredentialsCfg w)

/-- useDeployedTenantCredentials (src/utils/internal/cached.ts, lines
203-213): await the subscribed-tenant credentials and look up the bootstrap
tenant; fail with a 500 HTTPError when the tenant has no entry.  It owns no
cache of its own. -/
def useDeployedTenantCredentialsGet {C : Type} (tenant : String)
    (fetch : Nat → Except HTTPError (List (String × C)))
    (w : CacheWorld (List (String × C))) :
    Except HTTPError C × CacheWorld (List (String × C)) :=
  match cachedGet subscribedTenantCredentialsCfg fetch w with
  | (.error e, w1) => (.error e, w1)
  | (.ok m, w1) =>
    match m.lookup tenant with
    | none =>
      (.error ⟨500, "Internal Server Error",
        "No credentials found for tenant deployed tenant \x27" ++ tenant ++ "\x27"⟩,
        w1)
    | some c => (.ok c, w1)

/-- useDeployedTenantCredentials.invalidate
(src/utils/internal/cached.ts, line 215): it is literally
useSubscribedTenantCredentials.invalidate. -/
def useDeployedTenantCredentialsInvalidate {C : Type}
    (w : CacheWorld (List (String × C))) : CacheWorld (List (String × C)) :=
  cachedInvalidate subscribedTenantCredentialsCfg w

/-- Request context state of useUser (src/utils/resources.ts, lines
99-127): the c8y_user slot of the request context bag, plus a count of
upstream current-user calls performed within the request. -/
structure UserReqWorld (U : Type) where
  ctxUser : Option U
  calls : Nat
deriving DecidableEq

/-- Upstream response of the current-user endpoint: the res.ok flag, the
status data and the user object. -/
structure UserResp (U : Type) where
  resOk : Bool
  status : Nat
  statusText : String
  user : U
deriving DecidableEq

/-- useUser (src/utils/resources.ts, lines 99-127): return the request
context slot when populated; otherwise call upstream, fail on a non-ok
response, and populate the slot on success. -/
def useUser {U : Type} (upstream : Nat → UserResp U) (w : UserReqWorld U) :
    Except HTTPError U × UserReqWorld U :=
  match w.ctxUser with
  | some u => (.ok u, w)
  | none =>
    let resp := upstream w.calls
    if resp.resOk then
      (.ok resp.user, ⟨some resp.user, w.calls + 1⟩)
    else
      (.error ⟨resp.status, resp.statusText, "Failed to fetch current user"⟩,
        ⟨none, w.calls + 1⟩)

/-- Request-scoped state of useUserTenantCredentials
(src/utils/internal/cached.ts, lines 239-266): the
c8y_user_tenant_credentials slot of the request context bag together with
the state of the subscribed-tenant-credentials cache it reads through. -/
structure UTCWorld (C : Type) where
  ctxCreds : Option C
  cache : CacheWorld (List (String × C))

/-- useUserTenantCredentials (src/utils/internal/cached.ts, lines 239-266):
return the request-context slot when populated; otherwise resolve the user
tenant id (derived from the request by useUserClient, passed here as
tenantId), read the subscribed-tenant credentials through their cache, look
up the tenant, fail with a 500 HTTPError when absent, and store the found
credentials in the request-context slot. -/
def useUserTenantCredentials {C : Type} (tenantId : String)
    (fetch : Nat → Except HTTPError (List (String × C))) (w : UTCWorld C) :
    Except HTTPError C × UTCWorld C :=
  match w.ctxCreds with
  | some c => (.ok c, w)
  | none =>
    match cachedGet subscribedTenantCredentialsCfg fetch w.cache with
    | (.error e, cache1) => (.error e, ⟨none, cache1⟩)
    | (.ok m, cache1) =>
      match m.lookup tenantId with
      | none =>
        (.error ⟨500, "Internal Server Error",
          "No subscribed tenant credentials found for user tenant \x27"
            ++ tenantId ++ "\x27"⟩, ⟨none, cache1⟩)
      | some c => (.ok c, ⟨some c, cache1⟩)

-- --------------------------------------------------------------------------
-- The dynamic tenant-option cache registry (src/utils/tenantOptions.ts).
-- --------------------------------------------------------------------------

/-- getTenantOptionCacheTTL (src/utils/tenantOptions.ts, lines 12-16):
per-key override if defined, else the configured default, else 600. -/
def getTenantOptionCacheTTL (perKeyTTL : Option (List (String × Nat)))
    (defaultTTL : Option Nat) (key : String) : Nat :=
  match perKeyTTL.bind (fun m => m.lookup key) with
  | some ttl => ttl
  | none => defaultTTL.getD 600

/-- The apiKey computation of the tenant-option fetch
(src/utils/tenantOptions.ts, line 41): key.replace of the anchored pattern
stripping one leading "credentials." occurrence. -/
def tenantOptionApiKey (key : String) : String :=
  if List.isPrefixOf "credentials.".data key.data then
    String.mk (key.data.drop 12)
  else key

/-- Upstream response of the tenant-option detail endpoint: either a value,
or a failure carrying a status and an opaque body (the error object the
client library throws). -/
inductive TenantOptionResp where
  | success (value : String)
  | failure (status : Nat) (body : String)
deriving DecidableEq

/-- The fetch function of createCachedTenantOptionFetcher
(src/utils/tenantOptions.ts, lines 37-57): call the option-detail endpoint
with the stripped apiKey; a 404 failure resolves to undefined (none), any
other failure is re-thrown, a success resolves to the option value. -/
def fetchTenantOption (upstream : String → TenantOptionResp) (key : String) :
    Except TenantOptionResp (Option String) :=
  match upstream (tenantOptionApiKey key) with
  | .success v => .ok (some v)
  | .failure status body =>
    if status = 404 then .ok none else .error (.failure status body)

/-- Cache configuration of the per-key tenant-option fetcher
(src/utils/tenantOptions.ts, lines 58-63): name derived from the original
(unstripped) key, group c8y_nitro, TTL resolved per key, no per-call
discriminator. -/
def tenantOptionCfg (perKeyTTL : Option (List (String × Nat)))
    (defaultTTL : Option Nat) (key : String) : CachedCfg :=
  ⟨tenantOptionCacheName key, "c8y_nitro",
    getTenantOptionCacheTTL perKeyTTL defaultTTL key, none⟩

/-- getOrCreateFetcher (src/utils/tenantOptions.ts, lines 83-90) acting on
the registry of keys that own a fetcher: a missing key is created and
registered, an existing key is reused.  The registry map is modelled by its
list of keys in insertion order. -/
def getOrCreateFetcher (key : String) (registry : List String) : List String :=
  if key ∈ registry then registry else registry ++ [key]

/-- Process state of the tenant-option subsystem: the registry of keys with
a created fetcher, and the cache world shared by all tenant-option cache
instances. -/
structure TOWorld where
  registry : List String
  cache : CacheWorld (Option String)

/-- useTenantOption(key) (src/utils/tenantOptions.ts, lines 129-133):
get-or-create the fetcher for the key, then run it through its cache. -/
def useTenantOptionGet (perKeyTTL : Option (List (String × Nat)))
    (defaultTTL : Option Nat) (upstream : String → TenantOptionResp)
    (key : String) (w : TOWorld) :
    Except TenantOptionResp (Option String) × TOWorld :=
  let registry1 := getOrCreateFetcher key w.registry
  let r := cachedGet (tenantOptionCfg perKeyTTL defaultTTL key)
    (fun _ => fetchTenantOption upstream key) w.cache
  (r.1, ⟨registry1, r.2⟩)

/-- useTenantOption.invalidate(key) (src/utils/tenantOptions.ts, lines
139-144): only an already-created fetcher is invalidated; a key without a
fetcher is left alone (no fetcher is created). -/
def useTenantOptionInvalidate (perKeyTTL : Option (List (String × Nat)))
    (defaultTTL : Option Nat) (key : String) (w : TOWorld) : TOWorld :=
  if key ∈ w.registry then
    ⟨w.registry,
      cachedInvalidate (tenantOptionCfg perKeyTTL defaultTTL key) w.cache⟩
  else w

/-- useTenantOption.refresh(key) (src/utils/tenantOptions.ts, lines
150-153): get-or-create the fetcher, then run its refresh (delete the
stored entry, fetch again). -/
def useTenantOptionRefresh (perKeyTTL : Option (List (String × Nat)))
    (defaultTTL : Option Nat) (upstream : String → TenantOptionResp)
    (key : String) (w : TOWorld) :
    Except TenantOptionResp (Option String) × TOWorld :=
  let registry1 := getOrCreateFetcher key w.registry
  let r := cachedRefresh (tenantOptionCfg perKeyTTL defaultTTL key)
    (fun _ => fetchTenantOption upstream key) w.cache
  (r.1, ⟨registry1, r.2⟩)

/-- useTenantOption.invalidateAll (src/utils/tenantOptions.ts, lines
159-163): invalidate every fetcher present in the registry, and only
those. -/
def useTenantOptionInvalidateAll (perKeyTTL : Option (List (String × Nat)))
    (defaultTTL : Option Nat) (w : TOWorld) : TOWorld :=
  ⟨w.registry,
    w.registry.foldl
      (fun cache k => cachedInvalidate (tenantOptionCfg perKeyTTL defaultTTL k) cache)
      w.cache⟩

/-- useTenantOption.refreshAll (src/utils/tenantOptions.ts, lines 170-174):
refresh every fetcher present in the registry and return the mapping from
each registered key to its refreshed value. -/
def useTenantOptionRefreshAll (perKeyTTL : Option (List (String × Nat)))
    (defaultTTL : Option Nat) (upstream : String → TenantOptionResp)
    (w : TOWorld) :
    List (String × Except TenantOptionResp (Option String)) × TOWorld :=
  let r := w.registry.foldl
    (fun acc k =>
      let s := cachedRefresh (tenantOptionCfg perKeyTTL defaultTTL k)
        (fun _ => fetchTenantOption upstream k) acc.2
      (acc.1 ++ [(k, s.1)], s.2))
    (([] : List (String × Except TenantOptionResp (Option String))), w.cache)
  (r.1, ⟨w.registry, r.2⟩)

-- --------------------------------------------------------------------------
-- Claim theorems.
-- --------------------------------------------------------------------------

/-- C1, counterexample: the tenant-option cache-name derivation is not
injective on distinct keys — the distinct keys "a.b" and "a_b" produce the
same cache name, because every dot is replaced by an underscore. -/
theorem tenantOptionCacheName_collision :
    tenantOptionCacheName "a.b" = tenantOptionCacheName "a_b"
      ∧ ("a.b" : String) ≠ "a_b" := by
  constructor
  · decide
  · decide

/-- C1 (amended): cache-key derivation is deterministic, the getUser key
discriminator never collides for distinct credential values, and the
tenant-option cache names are distinct for every two keys that still differ
after replacing every dot by an underscore (keys that agree after that
replacement, such as "a.b" and "a_b", collide). -/
theorem cacheKeyDerivation_amended :
    (∀ k1 k2 : String, replaceDots k1 ≠ replaceDots k2 →
      tenantOptionCacheName k1 ≠ tenantOptionCacheName k2)
    ∧ (∀ c1 c2 : ICredentials, c1 = c2 →
      getUserCacheKeyPart c1 = getUserCacheKeyPart c2)
    ∧ (∀ c1 c2 : ICredentials, c1 ≠ c2 →
      getUserCacheKeyPart c1 ≠ getUserCacheKeyPart c2) := by
  refine ⟨?_, ?_, ?_⟩
  · intro k1 k2 hne heq
    apply hne
    have hd := congrArg String.data heq
    simp only [tenantOptionCacheName, String.data_append] at hd
    have := List.append_cancel_left hd
    exact congrArg String.mk (by simpa [replaceDots] using this)
  · intro c1 c2 h; rw [h]
  · intro c1 c2 hne heq
    exact hne (getUserCacheKeyPart_injective heq)

/-- Witness for C1 (amended) at concrete inputs. -/
theorem cacheKeyDerivation_amended_witness :
    tenantOptionCacheName "a.b" ≠ tenantOptionCacheName "a.c"
      ∧ getUserCacheKeyPart (.basic "u" "p" "t1")
          ≠ getUserCacheKeyPart (.basic "u" "p" "t2") :=
  ⟨cacheKeyDerivation_amended.1 "a.b" "a.c" (by decide),
    cacheKeyDerivation_amended.2.2 (.basic "u" "p" "t1") (.basic "u" "p" "t2")
      (by decide)⟩

deriving instance DecidableEq for Except

theorem isPrefixOf_append_true (p t : List Char) :
    List.isPrefixOf p (p ++ t) = true := by
  induction p with
  | nil => simp [List.isPrefixOf]
  | cons c cs ih => simp [List.isPrefixOf, ih]

theorem jsSliceFrom_basicHeader (payload : String) :
    jsSliceFrom ("Basic " ++ payload) 6 = payload := by
  show String.mk (("Basic " ++ payload).data.drop 6) = payload
  rw [String.data_append]
  have h6 : (6 : Nat) = "Basic ".data.length := rfl
  rw [h6, List.drop_left]

theorem jsStartsWith_basicHeader (payload : String) :
    jsStartsWith ("Basic " ++ payload) "Basic " = true := by
  show List.isPrefixOf "Basic ".data ("Basic " ++ payload).data = true
  rw [String.data_append]
  exact isPrefixOf_append_true _ _

/-- C4: for every Basic Authorization header whose base64 payload decodes to
a string with a colon at (first) index i and whose pre-colon portion has a
slash at (first) index j, extraction succeeds with the username split at the
first slash and the password equal to everything after the (first) colon;
in particular the decoded payloads "t1/u1/u2:pw" and "t12345/alice:secret"
yield tenant "t1", user "u1/u2", password "pw" and tenant "t12345", user
"alice", password "secret" respectively. -/
theorem extractCredentials_basic_ok :
    (∀ (b64decode : String → String) (payload d : String) (i j : Nat),
      b64decode payload = d →
      jsIndexOf d ':' = some i →
      jsIndexOf (jsSliceTo d i) '/' = some j →
      extractUserCredentialsFromHeaders b64decode (some ("Basic " ++ payload))
        = .ok (.basic (jsSliceFrom (jsSliceTo d i) (j + 1))
            (jsSliceFrom d (i + 1))
            (jsSliceTo (jsSliceTo d i) j)))
    ∧ extractUserCredentialsFromHeaders (fun _ => "t1/u1/u2:pw")
        (some "Basic dDEvdTEvdTI6cHc=")
        = .ok (.basic "u1/u2" "pw" "t1")
    ∧ extractUserCredentialsFromHeaders (fun _ => "t12345/alice:secret")
        (some "Basic dDEyMzQ1L2FsaWNlOnNlY3JldA==")
        = .ok (.basic "alice" "secret" "t12345") := by
  refine ⟨?_, by decide, by decide⟩
  intro b64decode payload d i j hdec hi hj
  simp only [extractUserCredentialsFromHeaders, jsStartsWith_basicHeader,
    if_true, jsSliceFrom_basicHeader, hdec, hi, hj]

/-- Witness for C4 at a concrete decoded payload. -/
theorem extractCredentials_basic_ok_witness :
    extractUserCredentialsFromHeaders (fun _ => "t1/u1/u2:pw")
        (some ("Basic " ++ "dDEvdTEvdTI6cHc="))
      = .ok (.basic (jsSliceFrom (jsSliceTo "t1/u1/u2:pw" 8) 3)
          (jsSliceFrom "t1/u1/u2:pw" 9)
          (jsSliceTo (jsSliceTo "t1/u1/u2:pw" 8) 2)) :=
  extractCredentials_basic_ok.1 (fun _ => "t1/u1/u2:pw") "dDEvdTEvdTI6cHc="
    "t1/u1/u2:pw" 8 2 rfl (by decide) (by decide)

/-- C5, counterexample: a Basic payload with more than one colon is not
rejected — the code only requires at least one colon and splits at the
first, so the decoded payload "t/u:p:q" (two colons) is accepted with
password "p:q" instead of failing Unauthorized. -/
theorem extractCredentials_two_colons_accepted :
    "t/u:p:q".data.count ':' = 2
      ∧ extractUserCredentialsFromHeaders (fun _ => "t/u:p:q")
          (some "Basic dC91OnA6cQ==") = .ok (.basic "u" "p:q" "t") :=
  ⟨by decide, by decide⟩

/-- C5 (amended): a decoded Basic payload with zero colons fails
Unauthorized (a payload with more than one colon is accepted, split at the
first colon); a payload whose pre-colon portion contains no slash fails
Unauthorized; a missing header, an empty Bearer token, and any scheme other
than Basic/Bearer fail Unauthorized. -/
theorem extractCredentials_error_cases_amended :
    (∀ b64decode : String → String,
      extractUserCredentialsFromHeaders b64decode none
        = .error ⟨401, "Unauthorized", "Missing Authorization header"⟩)
    ∧ (∀ (b64decode : String → String) (payload d : String),
      b64decode payload = d →
      jsIndexOf d ':' = none →
      extractUserCredentialsFromHeaders b64decode (some ("Basic " ++ payload))
        = .error ⟨401, "Unauthorized", "Invalid Basic auth format"⟩)
    ∧ (∀ (b64decode : String → String) (payload d : String) (i : Nat),
      b64decode payload = d →
      jsIndexOf d ':' = some i →
      jsIndexOf (jsSliceTo d i) '/' = none →
      extractUserCredentialsFromHeaders b64decode (some ("Basic " ++ payload))
        = .error ⟨401, "Unauthorized",
            "Invalid username format, expected tenant/user"⟩)
    ∧ (∀ b64decode : String → String,
      extractUserCredentialsFromHeaders b64decode (some "Bearer ")
        = .error ⟨401, "Unauthorized", "Empty Bearer token"⟩)
    ∧ (∀ (b64decode : String → String) (auth : String),
      jsStartsWith auth "Basic " = false →
      jsStartsWith auth "Bearer " = false →
      extractUserCredentialsFromHeaders b64decode (some auth)
        = .error ⟨401, "Unauthorized",
            "Unsupported Authorization header format"⟩) := by
  refine ⟨fun _ => rfl, ?_, ?_, ?_, ?_⟩
  · intro b64decode payload d hdec hi
    simp only [extractUserCredentialsFromHeaders, jsStartsWith_basicHeader,
      if_true, jsSliceFrom_basicHeader, hdec, hi]
  · intro b64decode payload d i hdec hi hj
    simp only [extractUserCredentialsFromHeaders, jsStartsWith_basicHeader,
      if_true, jsSliceFrom_basicHeader, hdec, hi, hj]
  · intro b64decode
    have hb : jsStartsWith "Bearer " "Basic " = false := by decide
    have hr : jsStartsWith "Bearer " "Bearer " = true := by decide
    have he : jsSliceFrom "Bearer " 7 = "" := by decide
    simp only [extractUserCredentialsFromHeaders, hb, hr, he, if_true,
      Bool.false_eq_true, if_false, if_pos rfl]
  · intro b64decode auth hb hr
    simp only [extractUserCredentialsFromHeaders, hb, hr,
      Bool.false_eq_true, if_false]

/-- Witness for C5 (amended) at concrete inputs. -/
theorem extractCredentials_error_cases_amended_witness :
    extractUserCredentialsFromHeaders (fun _ => "nocolon")
        (some ("Basic " ++ "bm9jb2xvbg=="))
        = .error ⟨401, "Unauthorized", "Invalid Basic auth format"⟩
      ∧ extractUserCredentialsFromHeaders (fun _ => "tu:p")
          (some ("Basic " ++ "dHU6cA=="))
          = .error ⟨401, "Unauthorized",
              "Invalid username format, expected tenant/user"⟩
      ∧ extractUserCredentialsFromHeaders (fun _ => "x") (some "Token abc")
          = .error ⟨401, "Unauthorized",
              "Unsupported Authorization header format"⟩ :=
  ⟨extractCredentials_error_cases_amended.2.1 (fun _ => "nocolon")
      "bm9jb2xvbg==" "nocolon" rfl (by decide),
    extractCredentials_error_cases_amended.2.2.1 (fun _ => "tu:p")
      "dHU6cA==" "tu:p" 2 rfl (by decide) (by decide),
    extractCredentials_error_cases_amended.2.2.2.2 (fun _ => "x") "Token abc"
      (by decide) (by decide)⟩

theorem cachedRefresh_eq_fetchAndStore {V E : Type} (cfg : CachedCfg)
    (fetch : Nat → Except E V) (w : CacheWorld V) :
    cachedRefresh cfg fetch w
      = cachedFetchAndStore cfg fetch (cachedInvalidate cfg w) := by
  have hmiss : storageGet (cachedInvalidate cfg w).storage (completeKey cfg)
      = none := storageGet_remove_self w.storage (completeKey cfg)
  show cachedGet cfg fetch (cachedInvalidate cfg w) = _
  simp [cachedGet, hmiss]

theorem cachedFetchAndStore_fetchCount {V E : Type} (cfg : CachedCfg)
    (fetch : Nat → Except E V) (w : CacheWorld V) :
    (cachedFetchAndStore cfg fetch w).2.fetchCount = w.fetchCount + 1 := by
  cases hf : fetch w.fetchCount <;> simp [cachedFetchAndStore, hf]

theorem cachedGet_after_fetchOk {V E : Type} (cfg : CachedCfg)
    (fetch : Nat → Except E V) (w : CacheWorld V) (v : V)
    (h : (cachedFetchAndStore cfg fetch w).1 = .ok v) :
    cachedGet cfg fetch (cachedFetchAndStore cfg fetch w).2
      = (.ok v, (cachedFetchAndStore cfg fetch w).2) := by
  cases hf : fetch w.fetchCount with
  | ok u =>
    have hv : u = v := by
      simp [cachedFetchAndStore, hf] at h
      exact h
    subst hv
    simp [cachedFetchAndStore, hf, cachedGet, storageGet_set_self]
  | error e => simp [cachedFetchAndStore, hf] at h

/-- C2: for every cached accessor — getUser, getUserRoles,
getSubscribedTenantCredentials and useTenantOption.refresh — refresh is
invalidate followed by get: the stored entry is deleted, an upstream fetch
is always performed (the fetch count increments regardless of the age of
any existing entry), and a subsequent get observes the freshly-fetched
value. -/
theorem refresh_is_invalidate_then_get :
    (∀ (V E : Type) (cfg : CachedCfg) (fetch : Nat → Except E V)
        (w : CacheWorld V),
      cachedRefresh cfg fetch w = cachedGet cfg fetch (cachedInvalidate cfg w)
      ∧ storageGet (cachedInvalidate cfg w).storage (completeKey cfg) = none
      ∧ (cachedRefresh cfg fetch w).2.fetchCount = w.fetchCount + 1
      ∧ (∀ v, (cachedRefresh cfg fetch w).1 = .ok v →
          cachedGet cfg fetch (cachedRefresh cfg fetch w).2
            = (.ok v, (cachedRefresh cfg fetch w).2)))
    ∧ (∀ (U : Type) (creds : ICredentials) (fetch : Nat → Except HTTPError U)
        (w : CacheWorld U),
      getUserRefresh creds fetch w = cachedRefresh (getUserCfg creds) fetch w)
    ∧ (∀ (creds : ICredentials) (fetch : Nat → Except HTTPError (List String))
        (w : CacheWorld (List String)),
      getUserRolesRefresh creds fetch w
        = cachedRefresh (getUserRolesCfg creds) fetch w)
    ∧ (∀ (C : Type) (fetch : Nat → Except HTTPError (List (String × C)))
        (w : CacheWorld (List (String × C))),
      getSubscribedTenantCredentialsRefresh fetch w
        = cachedRefresh subscribedTenantCredentialsCfg fetch w)
    ∧ (∀ (perKeyTTL : Option (List (String × Nat))) (defaultTTL : Option Nat)
        (upstream : String → TenantOptionResp) (key : String) (w : TOWorld),
      (useTenantOptionRefresh perKeyTTL defaultTTL upstream key w).1
          = (cachedRefresh (tenantOptionCfg perKeyTTL defaultTTL key)
              (fun _ => fetchTenantOption upstream key) w.cache).1
        ∧ (useTenantOptionRefresh perKeyTTL defaultTTL upstream key w).2.cache
          = (cachedRefresh (tenantOptionCfg perKeyTTL defaultTTL key)
              (fun _ => fetchTenantOption upstream key) w.cache).2) := by
  refine ⟨?_, fun _ _ _ _ => rfl, fun _ _ _ => rfl, fun _ _ _ => rfl,
    fun _ _ _ _ _ => ⟨rfl, rfl⟩⟩
  intro V E cfg fetch w
  refine ⟨rfl, storageGet_remove_self w.storage (completeKey cfg), ?_, ?_⟩
  · rw [cachedRefresh_eq_fetchAndStore]
    exact cachedFetchAndStore_fetchCount cfg fetch (cachedInvalidate cfg w)
  · intro v hv
    rw [cachedRefresh_eq_fetchAndStore] at hv ⊢
    exact cachedGet_after_fetchOk cfg fetch (cachedInvalidate cfg w) v hv

/-- Witness for C2: at a concrete cache configuration and world, a refresh
fetches even though the stored entry is fresh, and a subsequent get observes
the freshly-fetched value. -/
theorem refresh_is_invalidate_then_get_witness :
    cachedGet subscribedTenantCredentialsCfg
        (fun n => (.ok [("t1", n)] : Except HTTPError (List (String × Nat))))
        (cachedRefresh subscribedTenantCredentialsCfg
          (fun n => (.ok [("t1", n)] : Except HTTPError (List (String × Nat))))
          ⟨[(completeKey subscribedTenantCredentialsCfg, ⟨[("t1", 99)], 5⟩)], 5, 0⟩).2
      = (.ok [("t1", 0)],
          (cachedRefresh subscribedTenantCredentialsCfg
            (fun n => (.ok [("t1", n)] : Except HTTPError (List (String × Nat))))
            ⟨[(completeKey subscribedTenantCredentialsCfg, ⟨[("t1", 99)], 5⟩)], 5, 0⟩).2) :=
  (refresh_is_invalidate_then_get.1 (List (String × Nat)) HTTPError
      subscribedTenantCredentialsCfg
      (fun n => (.ok [("t1", n)] : Except HTTPError (List (String × Nat))))
      ⟨[(completeKey subscribedTenantCredentialsCfg, ⟨[("t1", 99)], 5⟩)], 5, 0⟩).2.2.2
    [("t1", 0)] (by decide)

/-- C3: useDeployedTenantCredentials has no cache entry of its own — its
effect on the cache world is exactly that of the subscribed-tenant get, its
result is the bootstrap-tenant lookup inside the very value that get
returned, and its invalidate is the subscribed-tenant invalidate, so
invalidating either accessor deletes the one shared entry. -/
theorem deployed_shares_subscribed_cache :
    ∀ (C : Type) (tenant : String)
      (fetch : Nat → Except HTTPError (List (String × C)))
      (w : CacheWorld (List (String × C))),
      (useDeployedTenantCredentialsGet tenant fetch w).2
          = (cachedGet subscribedTenantCredentialsCfg fetch w).2
      ∧ (∀ m, (cachedGet subscribedTenantCredentialsCfg fetch w).1 = .ok m →
          (useDeployedTenantCredentialsGet tenant fetch w).1
            = (match m.lookup tenant with
               | some c => .ok c
               | none => .error ⟨500, "Internal Server Error",
                   "No credentials found for tenant deployed tenant \x27"
                     ++ tenant ++ "\x27"⟩))
      ∧ useDeployedTenantCredentialsInvalidate w
          = cachedInvalidate subscribedTenantCredentialsCfg w
      ∧ storageGet (useDeployedTenantCredentialsInvalidate w).storage
          (completeKey subscribedTenantCredentialsCfg) = none := by
  intro C tenant fetch w
  refine ⟨?_, ?_, rfl,
    storageGet_remove_self w.storage (completeKey subscribedTenantCredentialsCfg)⟩
  · rcases h : cachedGet subscribedTenantCredentialsCfg fetch w with ⟨r, w1⟩
    cases r with
    | error e => simp [useDeployedTenantCredentialsGet, h]
    | ok m =>
      cases hml : m.lookup tenant <;>
        simp [useDeployedTenantCredentialsGet, h, hml]
  · intro m hm
    rcases h : cachedGet subscribedTenantCredentialsCfg fetch w with ⟨r, w1⟩
    rw [h] at hm
    cases r with
    | error e => exact absurd hm (by simp)
    | ok m2 =>
      have hm2 : m2 = m := by simpa using hm
      subst hm2
      cases hml : m2.lookup tenant <;>
        simp [useDeployedTenantCredentialsGet, h, hml]

/-- Witness for C3 at a concrete world: on an empty cache the deployed
accessor fetches through the subscribed cache and returns the bootstrap
tenant's entry of the fetched map. -/
theorem deployed_shares_subscribed_cache_witness :
    (useDeployedTenantCredentialsGet "t1"
        (fun _ => (.ok [("t1", 7)] : Except HTTPError (List (String × Nat))))
        ⟨[], 0, 0⟩).1
      = .ok 7 := by
  have h := (deployed_shares_subscribed_cache Nat "t1"
      (fun _ => (.ok [("t1", 7)] : Except HTTPError (List (String × Nat))))
      ⟨[], 0, 0⟩).2.1 [("t1", 7)] (by decide)
  rw [h]
  decide

theorem replaceDots_append (a b : String) :
    replaceDots (a ++ b) = replaceDots a ++ replaceDots b := by
  show String.mk _ = String.mk _ ++ String.mk _
  have : (String.mk (a.data.map (fun c => if c = '.' then '_' else c))
        ++ String.mk (b.data.map (fun c => if c = '.' then '_' else c)))
      = String.mk (a.data.map (fun c => if c = '.' then '_' else c)
          ++ b.data.map (fun c => if c = '.' then '_' else c)) := rfl
  rw [this]
  exact congrArg String.mk (by rw [String.data_append, List.map_append])

theorem mem_getOrCreateFetcher (key : String) (registry : List String) :
    key ∈ getOrCreateFetcher key registry := by
  by_cases h : key ∈ registry <;> simp [getOrCreateFetcher, h]

/-- C6: for a key with the reserved "credentials." prefix, the upstream
option-detail call strips the prefix from the key while the registry entry
and the cache name are derived from the original unstripped key; in
particular useTenantOption("credentials.secret") calls upstream with key
"secret" (observed through an echoing upstream) and registers the key
"credentials.secret". -/
theorem tenantOption_strip_for_api_only :
    (∀ rest : String, tenantOptionApiKey ("credentials." ++ rest) = rest)
    ∧ (∀ (rest : String) (upstream : String → TenantOptionResp),
      fetchTenantOption upstream ("credentials." ++ rest)
        = (match upstream rest with
           | .success v => .ok (some v)
           | .failure status body =>
             if status = 404 then .ok none else .error (.failure status body)))
    ∧ (∀ (perKeyTTL : Option (List (String × Nat))) (defaultTTL : Option Nat)
        (upstream : String → TenantOptionResp) (key : String) (w : TOWorld),
      (useTenantOptionGet perKeyTTL defaultTTL upstream key w).2.registry
          = getOrCreateFetcher key w.registry
        ∧ key ∈ (useTenantOptionGet perKeyTTL defaultTTL upstream key w).2.registry)
    ∧ (∀ rest : String,
      tenantOptionCacheName ("credentials." ++ rest)
        = "_c8y_nitro_tenant_option_credentials_" ++ replaceDots rest)
    ∧ (useTenantOptionGet none none (fun k => .success k) "credentials.secret"
        ⟨[], ⟨[], 0, 0⟩⟩).1 = .ok (some "secret")
    ∧ (useTenantOptionGet none none (fun k => .success k) "credentials.secret"
        ⟨[], ⟨[], 0, 0⟩⟩).2.registry = ["credentials.secret"] := by
  have hstrip : ∀ rest : String,
      tenantOptionApiKey ("credentials." ++ rest) = rest := by
    intro rest
    show (if List.isPrefixOf "credentials.".data ("credentials." ++ rest).data
        then String.mk (("credentials." ++ rest).data.drop 12)
        else ("credentials." ++ rest)) = rest
    rw [String.data_append, isPrefixOf_append_true, if_pos rfl]
    have h12 : (12 : Nat) = "credentials.".data.length := rfl
    rw [h12, List.drop_left]
  refine ⟨hstrip, ?_, ?_, ?_, by decide, by decide⟩
  · intro rest upstream
    simp [fetchTenantOption, hstrip rest]
  · intro perKeyTTL defaultTTL upstream key w
    exact ⟨rfl, mem_getOrCreateFetcher key w.registry⟩
  · intro rest
    show "_c8y_nitro_tenant_option_" ++ replaceDots ("credentials." ++ rest) = _
    rw [replaceDots_append]
    have h1 : replaceDots "credentials." = "credentials_" := by decide
    rw [h1, ← String.append_assoc]
    rfl

theorem cachedGet_of_miss {V E : Type} (cfg : CachedCfg)
    (fetch : Nat → Except E V) (w : CacheWorld V)
    (h : storageGet w.storage (completeKey cfg) = none) :
    cachedGet cfg fetch w = cachedFetchAndStore cfg fetch w := by
  simp [cachedGet, h]

/-- C7: when the tenant-option cache has no stored entry and the upstream
option-detail lookup fails, a 404 status makes useTenantOption resolve to
undefined (none) instead of throwing, while a failure with any other status
is re-thrown to the caller unmodified. -/
theorem tenantOption_404_resolves_undefined :
    ∀ (perKeyTTL : Option (List (String × Nat))) (defaultTTL : Option Nat)
      (upstream : String → TenantOptionResp) (key : String) (w : TOWorld)
      (status : Nat) (body : String),
      storageGet w.cache.storage
        (completeKey (tenantOptionCfg perKeyTTL defaultTTL key)) = none →
      upstream (tenantOptionApiKey key) = .failure status body →
      (status = 404 →
        (useTenantOptionGet perKeyTTL defaultTTL upstream key w).1 = .ok none)
      ∧ (status ≠ 404 →
        (useTenantOptionGet perKeyTTL defaultTTL upstream key w).1
          = .error (.failure status body)) := by
  intro perKeyTTL defaultTTL upstream key w status body hmiss hup
  have h1 : (useTenantOptionGet perKeyTTL defaultTTL upstream key w).1
      = (cachedFetchAndStore (tenantOptionCfg perKeyTTL defaultTTL key)
          (fun _ => fetchTenantOption upstream key) w.cache).1 := by
    show (cachedGet (tenantOptionCfg perKeyTTL defaultTTL key)
        (fun _ => fetchTenantOption upstream key) w.cache).1 = _
    rw [cachedGet_of_miss _ _ _ hmiss]
  constructor
  · intro h404
    subst h404
    rw [h1]
    simp [cachedFetchAndStore, fetchTenantOption, hup]
  · intro hne
    rw [h1]
    simp [cachedFetchAndStore, fetchTenantOption, hup, hne]

/-- Witness for C7: concrete 404 and 500 upstream failures on an empty
cache. -/
theorem tenantOption_404_resolves_undefined_witness :
    (useTenantOptionGet none none (fun _ => .failure 404 "not found") "k"
        ⟨[], ⟨[], 0, 0⟩⟩).1 = .ok none
    ∧ (useTenantOptionGet none none (fun _ => .failure 500 "boom") "k"
        ⟨[], ⟨[], 0, 0⟩⟩).1 = .error (.failure 500 "boom") :=
  ⟨(tenantOption_404_resolves_undefined none none (fun _ => .failure 404 "not found")
      "k" ⟨[], ⟨[], 0, 0⟩⟩ 404 "not found" rfl rfl).1 rfl,
    (tenantOption_404_resolves_undefined none none (fun _ => .failure 500 "boom")
      "k" ⟨[], ⟨[], 0, 0⟩⟩ 500 "boom" rfl rfl).2 (by decide)⟩

/-- C9: within one request, each request-scoped resource is computed at most
once under sequential awaited calls: a populated context slot is returned
as-is with no upstream call and no state change, and a second sequential
call after a successful first call returns exactly the stored value with no
further upstream resolution, for useUser and useUserTenantCredentials. -/
theorem request_scoped_memo_at_most_once :
    ∀ (U C : Type) (upstream : Nat → UserResp U) (w : UserReqWorld U)
      (tenantId : String) (fetch : Nat → Except HTTPError (List (String × C)))
      (w2 : UTCWorld C),
      (∀ u, w.ctxUser = some u → useUser upstream w = (.ok u, w))
      ∧ (∀ u w1, useUser upstream w = (.ok u, w1) →
          useUser upstream w1 = (.ok u, w1))
      ∧ (∀ c, w2.ctxCreds = some c →
          useUserTenantCredentials tenantId fetch w2 = (.ok c, w2))
      ∧ (∀ c w3, useUserTenantCredentials tenantId fetch w2 = (.ok c, w3) →
          useUserTenantCredentials tenantId fetch w3 = (.ok c, w3)) := by
  intro U C upstream w tenantId fetch w2
  refine ⟨?_, ?_, ?_, ?_⟩
  · intro u h
    simp [useUser, h]
  · intro u w1 h
    cases hctx : w.ctxUser with
    | some u0 =>
      simp only [useUser, hctx] at h
      obtain ⟨hu, hw⟩ := Prod.mk.injEq .. ▸ h
      have hu2 : u0 = u := by exact_mod_cast congrArg (fun x => x) (by injection hu)
      subst hu2
      rw [← hw]
      simp [useUser, hctx]
    | none =>
      simp only [useUser, hctx] at h
      by_cases hok : (upstream w.calls).resOk
      · simp only [hok, if_true, Prod.mk.injEq] at h
        obtain ⟨hu, hw⟩ := h
        have hu2 : (upstream w.calls).user = u := by injection hu
        subst hu2
        rw [← hw]
        simp [useUser]
      · simp [hok] at h
  · intro c h
    simp [useUserTenantCredentials, h]
  · intro c w3 h
    cases hctx : w2.ctxCreds with
    | some c0 =>
      simp only [useUserTenantCredentials, hctx, Prod.mk.injEq] at h
      obtain ⟨hc, hw⟩ := h
      have hc2 : c0 = c := by injection hc
      subst hc2
      rw [← hw]
      simp [useUserTenantCredentials, hctx]
    | none =>
      simp only [useUserTenantCredentials, hctx] at h
      rcases hg : cachedGet subscribedTenantCredentialsCfg fetch w2.cache
        with ⟨r, cache1⟩
      rw [hg] at h
      cases r with
      | error e => simp at h
      | ok m =>
        cases hml : m.lookup tenantId with
        | none => simp [hml] at h
        | some c1 =>
          simp only [hml, Prod.mk.injEq] at h
          obtain ⟨hc, hw⟩ := h
          have hc2 : c1 = c := by injection hc
          subst hc2
          rw [← hw]
          simp [useUserTenantCredentials]

/-- Witness for C9: populated slots are returned unchanged at concrete
inputs. -/
theorem request_scoped_memo_at_most_once_witness :
    useUser (fun _ => ⟨true, 200, "OK", "alice"⟩)
        (⟨some "alice", 1⟩ : UserReqWorld String)
        = (.ok "alice", ⟨some "alice", 1⟩)
    ∧ useUserTenantCredentials "t1"
        (fun _ => (.ok [("t1", 5)] : Except HTTPError (List (String × Nat))))
        ⟨some 5, ⟨[], 0, 0⟩⟩
        = (.ok 5, ⟨some 5, ⟨[], 0, 0⟩⟩) :=
  ⟨(request_scoped_memo_at_most_once String Nat
      (fun _ => ⟨true, 200, "OK", "alice"⟩) ⟨some "alice", 1⟩ "t1"
      (fun _ => .ok [("t1", 5)]) ⟨some 5, ⟨[], 0, 0⟩⟩).1 "alice" rfl,
    (request_scoped_memo_at_most_once String Nat
      (fun _ => ⟨true, 200, "OK", "alice"⟩) ⟨some "alice", 1⟩ "t1"
      (fun _ => .ok [("t1", 5)]) ⟨some 5, ⟨[], 0, 0⟩⟩).2.2.1 5 rfl⟩

/-- C10: invalidating a never-accessed tenant-option key is a silent no-op
(the registry and the storage are unchanged and nothing fails), while
refreshing a never-accessed key does create and register the fetcher and
performs an upstream fetch. -/
theorem tenantOption_invalidate_unknown_noop :
    ∀ (perKeyTTL : Option (List (String × Nat))) (defaultTTL : Option Nat)
      (upstream : String → TenantOptionResp) (key : String) (w : TOWorld),
      key ∉ w.registry →
      useTenantOptionInvalidate perKeyTTL defaultTTL key w = w
      ∧ (useTenantOptionRefresh perKeyTTL defaultTTL upstream key w).2.registry
          = w.registry ++ [key]
      ∧ (useTenantOptionRefresh perKeyTTL defaultTTL upstream key w).2.cache.fetchCount
          = w.cache.fetchCount + 1 := by
  intro perKeyTTL defaultTTL upstream key w h
  refine ⟨?_, ?_, ?_⟩
  · simp [useTenantOptionInvalidate, h]
  · show getOrCreateFetcher key w.registry = w.registry ++ [key]
    simp [getOrCreateFetcher, h]
  · show (cachedRefresh (tenantOptionCfg perKeyTTL defaultTTL key)
        (fun _ => fetchTenantOption upstream key) w.cache).2.fetchCount
      = w.cache.fetchCount + 1
    rw [cachedRefresh_eq_fetchAndStore]
    exact cachedFetchAndStore_fetchCount _ _ _

/-- Witness for C10 at a concrete never-accessed key. -/
theorem tenantOption_invalidate_unknown_noop_witness :
    useTenantOptionInvalidate none none "k" ⟨[], ⟨[], 0, 0⟩⟩
        = (⟨[], ⟨[], 0, 0⟩⟩ : TOWorld)
      ∧ (useTenantOptionRefresh none none (fun _ => .success "v") "k"
          ⟨[], ⟨[], 0, 0⟩⟩).2.registry = [] ++ ["k"]
      ∧ (useTenantOptionRefresh none none (fun _ => .success "v") "k"
          ⟨[], ⟨[], 0, 0⟩⟩).2.cache.fetchCount = 0 + 1 :=
  tenantOption_invalidate_unknown_noop none none (fun _ => .success "v") "k"
    ⟨[], ⟨[], 0, 0⟩⟩ (by simp)

theorem completeKey_name_inj (n1 n2 g : String) (a1 a2 : Nat)
    (h : completeKey ⟨n1, g, a1, none⟩ = completeKey ⟨n2, g, a2, none⟩) :
    n1 = n2 := by
  have hd := congrArg String.data h
  simp only [completeKey, String.data_append, List.append_assoc] at hd
  have hd1 := List.append_cancel_left hd
  have hd2 := List.append_cancel_left hd1
  have hd3 : n1.data = n2.data := by
    have h4 : n1.data ++ ("".data ++ ".json".data)
        = n2.data ++ ("".data ++ ".json".data) := by
      simpa [List.append_assoc] using hd2
    exact List.append_cancel_right h4
  calc n1 = String.mk n1.data := rfl
    _ = String.mk n2.data := congrArg String.mk hd3
    _ = n2 := rfl

theorem foldl_invalidate_frame (perKeyTTL : Option (List (String × Nat)))
    (defaultTTL : Option Nat) (keys : List String)
    (cache : CacheWorld (Option String)) (k : String)
    (h : tenantOptionCacheName k ∉ keys.map tenantOptionCacheName) :
    storageGet
        (keys.foldl
          (fun c r => cachedInvalidate (tenantOptionCfg perKeyTTL defaultTTL r) c)
          cache).storage
        (completeKey (tenantOptionCfg perKeyTTL defaultTTL k))
      = storageGet cache.storage
          (completeKey (tenantOptionCfg perKeyTTL defaultTTL k)) := by
  induction keys generalizing cache with
  | nil => rfl
  | cons r rs ih =>
    simp only [List.map_cons, List.mem_cons] at h
    push_neg at h
    obtain ⟨hr, hrs⟩ := h
    rw [List.foldl_cons, ih _ hrs]
    apply storageGet_remove_other
    intro heq
    exact hr (completeKey_name_inj _ _ _ _ _ heq)

theorem refreshAll_foldl_keys (perKeyTTL : Option (List (String × Nat)))
    (defaultTTL : Option Nat) (upstream : String → TenantOptionResp)
    (keys : List String)
    (acc : List (String × Except TenantOptionResp (Option String)))
    (cache : CacheWorld (Option String)) :
    ((keys.foldl
        (fun acc k =>
          let s := cachedRefresh (tenantOptionCfg perKeyTTL defaultTTL k)
            (fun _ => fetchTenantOption upstream k) acc.2
          (acc.1 ++ [(k, s.1)], s.2))
        (acc, cache)).1).map Prod.fst
      = acc.map Prod.fst ++ keys := by
  induction keys generalizing acc cache with
  | nil => simp
  | cons r rs ih =>
    rw [List.foldl_cons]
    rw [ih]
    simp

/-- C8, counterexample: because tenant-option cache names collide after the
dot-to-underscore replacement, invalidateAll does touch the cache entry of
a key that has never been accessed: after accessing only "a.b", the
never-accessed key "a_b" reads the same storage slot, and invalidateAll
deletes it. -/
theorem invalidateAll_touches_unaccessed_colliding_key :
    "a_b" ∉ ((useTenantOptionGet none none (fun _ => .success "v") "a.b"
        ⟨[], ⟨[], 0, 0⟩⟩).2).registry
    ∧ storageGet ((useTenantOptionGet none none (fun _ => .success "v") "a.b"
          ⟨[], ⟨[], 0, 0⟩⟩).2).cache.storage
        (completeKey (tenantOptionCfg none none "a_b")) = some ⟨some "v", 0⟩
    ∧ storageGet (useTenantOptionInvalidateAll none none
          ((useTenantOptionGet none none (fun _ => .success "v") "a.b"
            ⟨[], ⟨[], 0, 0⟩⟩).2)).cache.storage
        (completeKey (tenantOptionCfg none none "a_b")) = none := by
  refine ⟨by decide, by decide, by decide⟩

/-- C8 (amended): invalidateAll and refreshAll operate only over keys
present in the registry: a key never accessed does not appear in
refreshAll's result mapping, and — provided its cache name does not collide
with the cache name of any registered key — its cache entry is untouched by
invalidateAll (colliding never-accessed keys such as "a_b" after "a.b" do
lose their entry). -/
theorem bulk_ops_only_registered_amended :
    ∀ (perKeyTTL : Option (List (String × Nat))) (defaultTTL : Option Nat)
      (upstream : String → TenantOptionResp) (w : TOWorld) (key : String),
      key ∉ w.registry →
      (tenantOptionCacheName key ∉ w.registry.map tenantOptionCacheName →
        storageGet (useTenantOptionInvalidateAll perKeyTTL defaultTTL w).cache.storage
            (completeKey (tenantOptionCfg perKeyTTL defaultTTL key))
          = storageGet w.cache.storage
              (completeKey (tenantOptionCfg perKeyTTL defaultTTL key)))
      ∧ key ∉ ((useTenantOptionRefreshAll perKeyTTL defaultTTL upstream w).1).map
          Prod.fst := by
  intro perKeyTTL defaultTTL upstream w key hreg
  constructor
  · intro hname
    exact foldl_invalidate_frame perKeyTTL defaultTTL w.registry w.cache key hname
  · show key ∉ ((w.registry.foldl _ (([] : List (String × Except TenantOptionResp (Option String))), w.cache)).1).map Prod.fst
    rw [refreshAll_foldl_keys]
    simpa using hreg

/-- Witness for C8 (amended) at a concrete world with one registered key and
a distinct non-colliding unregistered key. -/
theorem bulk_ops_only_registered_amended_witness :
    storageGet (useTenantOptionInvalidateAll none none
          ⟨["a.b"], ⟨[(completeKey (tenantOptionCfg none none "x.y"), ⟨some "w", 0⟩)], 0, 0⟩⟩).cache.storage
        (completeKey (tenantOptionCfg none none "x.y"))
      = storageGet
          (⟨[(completeKey (tenantOptionCfg none none "x.y"), ⟨some "w", 0⟩)], 0, 0⟩ :
            CacheWorld (Option String)).storage
          (completeKey (tenantOptionCfg none none "x.y"))
    ∧ "x.y" ∉ ((useTenantOptionRefreshAll none none (fun _ => .success "v")
        ⟨["a.b"], ⟨[(completeKey (tenantOptionCfg none none "x.y"), ⟨some "w", 0⟩)], 0, 0⟩⟩).1).map
          Prod.fst :=
  bulk_ops_only_registered_amended none none (fun _ => .success "v")
    ⟨["a.b"], ⟨[(completeKey (tenantOptionCfg none none "x.y"), ⟨some "w", 0⟩)], 0, 0⟩⟩
    "x.y" (by decide) |>.imp (fun h => h (by decide)) id
